import Mathlib

/-!
Shallow embedding of `src/archive_inactive_jira_projects.py`.

Timestamps (`datetime` instants) are modelled as integers (seconds); a
`timedelta(days=d)` is `d * 86400`.  Every HTTP interaction is modelled by
response values supplied as functions (the external Jira / Slack services),
and each call performed by the script is recorded in an `Event` trace so
that request counts and orderings can be stated.  `requests`'
`raise_for_status` raises exactly when the status code is `>= 400`; a
raised, unhandled exception is modelled by an error result carrying no
partial data.  The pagination `while` loop is given explicit fuel; a run
whose fuel is exhausted is reported as `fuelOut`, distinct from every
behaviour of the script.
-/

namespace ArchiveInactive

/-- `datetime` instants are modelled as `Int` (seconds, UTC).

Seconds in one day: `timedelta(days=1)`. -/
def secondsPerDay : Int := 86400

/-- Line 64: `cutoff = datetime.now(timezone.utc) - timedelta(days=inactive_days)`. -/
def cutoff (now : Int) (inactive_days : Int) : Int :=
  now - inactive_days * secondsPerDay

/-- One element of the listing API `values` array: `{id, key, name}`. -/
structure Project where
  id : String
  key : String
  name : String
deriving Repr, DecidableEq

/-- One element of the list built by `find_inactive_projects`
(`{"id", "key", "name", "last_updated": datetime|None}`). -/
structure InactiveEntry where
  id : String
  key : String
  name : String
  last_updated : Option Int
deriving Repr, DecidableEq

/-- Response of one `GET /rest/api/3/project/search` page. -/
structure ListingResponse where
  status : Nat
  total : Nat
  values : List Project
deriving Repr

/-- Response of one `POST /rest/api/3/search/jql` activity query: the status
code and the `updated` timestamps of `results[0]["issues"]` (the server is
asked for `maxResults = 1`, newest first). -/
structure SearchResponse where
  status : Nat
  issues : List Int
deriving Repr

/-- Response of one `POST .../project/{id}/archive` call. -/
structure ArchiveResponse where
  status : Nat
  text : String
deriving Repr

/-- The two Jira read endpoints used by discovery, as response oracles:
`listing start_at` is the page fetched with `startAt = start_at`, and
`search key` answers the JQL query `project=key ORDER BY updated DESC`. -/
structure JiraApi where
  listing : Nat → ListingResponse
  search : String → SearchResponse

/-- Network calls and notifications performed by the script, in order. -/
inductive Event where
  | listingRequest (start_at : Nat)
  | searchRequest (key : String)
  | archiveRequest (id : String)
  | slackPost (text : String)
deriving Repr, DecidableEq

def Event.isListing : Event → Bool
  | .listingRequest _ => true
  | _ => false

def Event.isSearch : Event → Bool
  | .searchRequest _ => true
  | _ => false

def Event.isArchive : Event → Bool
  | .archiveRequest _ => true
  | _ => false

def Event.isSlack : Event → Bool
  | .slackPost _ => true
  | _ => false

def listingCount (evs : List Event) : Nat := evs.countP Event.isListing

def searchCount (evs : List Event) : Nat := evs.countP Event.isSearch

def archiveCount (evs : List Event) : Nat := evs.countP Event.isArchive

def slackCount (evs : List Event) : Nat := evs.countP Event.isSlack

/-- Lines 85-105: one iteration of the inner `for project in data["values"]`
loop body, for a single project: issue the activity query, raise on a bad
status, and classify.  `some entry` means the project was appended to
`inactive`; `none` means it was left out (active). -/
def processProject (api : JiraApi) (c : Int) (p : Project) :
    Except Unit (Option InactiveEntry) :=
  let i_resp := api.search p.key
  if 400 ≤ i_resp.status then .error ()
  else
    match i_resp.issues with
    | [] => .ok (some { id := p.id, key := p.key, name := p.name, last_updated := none })
    | updated_at :: _ =>
      if updated_at < c then
        .ok (some { id := p.id, key := p.key, name := p.name, last_updated := some updated_at })
      else
        .ok none

/-- Lines 81-105: the inner `for` loop over one page's `values`, threading the
`inactive` accumulator.  Returns the search events it performed and either
the grown accumulator or a propagated `HTTPError` (which discards the
accumulator, as a raised Python exception does). -/
def processValues (api : JiraApi) (c : Int) :
    List Project → List InactiveEntry → List Event × Except Unit (List InactiveEntry)
  | [], acc => ([], .ok acc)
  | p :: rest, acc =>
    let ev := Event.searchRequest p.key
    match processProject api c p with
    | .error () => ([ev], .error ())
    | .ok none =>
      let r := processValues api c rest acc
      (ev :: r.1, r.2)
    | .ok (some entry) =>
      let r := processValues api c rest (acc ++ [entry])
      (ev :: r.1, r.2)

/-- Outcome of `find_inactive_projects`. -/
inductive ScanResult where
  | ok (inactive : List InactiveEntry)
  | httpError
  | fuelOut
deriving Repr, DecidableEq

/-- Lines 70-107: the pagination `while total is None or start_at < total`
loop, with explicit fuel.  Each iteration fetches one listing page, raises
on a bad status, re-reads `total` from that page, processes its `values`,
and advances `start_at` by the fixed `max_results = 50`. -/
def scanLoop (api : JiraApi) (c : Int) (fuel start_at : Nat) (total : Option Nat)
    (inactive : List InactiveEntry) : List Event × ScanResult :=
  let go : Bool := match total with
    | none => true
    | some t => decide (start_at < t)
  if go then
    match fuel with
    | 0 => ([], .fuelOut)
    | f + 1 =>
      let resp := api.listing start_at
      let ev := Event.listingRequest start_at
      if 400 ≤ resp.status then ([ev], .httpError)
      else
        let pr := processValues api c resp.values inactive
        match pr.2 with
        | .error () => (ev :: pr.1, .httpError)
        | .ok inactive2 =>
          let r2 := scanLoop api c f (start_at + 50) (some resp.total) inactive2
          (ev :: (pr.1 ++ r2.1), r2.2)
  else
    ([], .ok inactive)

/-- Lines 59-110: `find_inactive_projects(inactive_days)`.  `now` is the
single instant captured at line 64; `fuel` bounds the modelled loop. -/
def find_inactive_projects (api : JiraApi) (now : Int) (fuel : Nat)
    (inactive_days : Int) : List Event × ScanResult :=
  scanLoop api (cutoff now inactive_days) fuel 0 none []

/-- Lines 113-120: `archive_project(project)`: one POST to the archive
endpoint; `True` exactly on status 202, `False` otherwise (the warning log
at line 119 carries `resp.text`, which is not returned). -/
def archive_project (archiveApi : String → ArchiveResponse) (p : InactiveEntry) :
    List Event × Bool :=
  let resp := archiveApi p.id
  ([Event.archiveRequest p.id], resp.status == 202)

/-- Line 119: the warning logged when an archive call is rejected —
`logging.warning("⚠️   Could not archive %s – %s", project["key"], resp.text)`;
`none` when the call succeeded (status 202). -/
def archive_warning (archiveApi : String → ArchiveResponse) (p : InactiveEntry) :
    Option String :=
  let resp := archiveApi p.id
  if resp.status == 202 then none
  else some s!"⚠️   Could not archive {p.key} – {resp.text}"

/-- Result of a Python expression: a value or a raised exception. -/
inductive PyResult (α : Type) where
  | ok (a : α)
  | exc (e : String)
deriving Repr, DecidableEq

/-- Lines 124-126: the body of the `try` block of `notify_slack` — the
webhook POST (which may itself raise), then `raise_for_status`. -/
def notify_slack_try (post : PyResult Nat) : PyResult Unit :=
  match post with
  | .exc e => .exc e
  | .ok status => if 400 ≤ status then .exc "HTTPError" else .ok ()

/-- Lines 123-129: `notify_slack(msg)`.  `deliver msg` is what the webhook
POST for `msg` does; the `except Exception` clause turns every raised
exception into a logged warning and a normal `None` return. -/
def notify_slack (deliver : String → PyResult Nat) (msg : String) : PyResult Unit :=
  match notify_slack_try (deliver msg) with
  | .ok () => .ok ()
  | .exc _ => .ok ()

/-- Line 146: the no-op summary text. -/
def noopMsg : String :=
  "🟢 No Jira projects needed archiving – everything is up to date!"

/-- `p['last_updated'].date()` rendered as a day ordinal (shallow model of
`datetime.date` formatting). -/
def dateStr (t : Int) : String := toString (t / secondsPerDay)

/-- Lines 150-153: one bullet of the dry-run listing. -/
def dryRunLine (p : InactiveEntry) : String :=
  s!"• {p.name} ({p.key}) – last update " ++
    (match p.last_updated with
     | some t => dateStr t
     | none => "never")

/-- Line 154: the dry-run preview message. -/
def dryRunMsg (inactive : List InactiveEntry) : String :=
  s!"ℹ️  *Dry run*: {inactive.length} project(s) would be archived:\n" ++
    String.intercalate "\n" (inactive.map dryRunLine)

/-- Lines 159-161: the archive pass: call `archive_project` on every entry in
order, partitioning into `(archived, failed)` and recording the events. -/
def archiveLoop (archiveApi : String → ArchiveResponse) :
    List InactiveEntry → List InactiveEntry × List InactiveEntry × List Event
  | [] => ([], [], [])
  | p :: rest =>
    let r := archive_project archiveApi p
    let r2 := archiveLoop archiveApi rest
    if r.2 then (p :: r2.1, r2.2.1, r.1 ++ r2.2.2)
    else (r2.1, p :: r2.2.1, r.1 ++ r2.2.2)

/-- Lines 163-169: the lines joined into the final summary message. -/
def summaryLines (days : Int) (archived failed : List InactiveEntry) : List String :=
  [s!"📦 Archived {archived.length} project(s) older than {days} days."]
    ++ (if archived.isEmpty then []
        else "\n*Archived:*" :: archived.map fun p => s!"• {p.name} ({p.key})")
    ++ (if failed.isEmpty then []
        else "\n*Failed:*" :: failed.map fun p => s!"• {p.name} ({p.key})")

/-- Line 171: the summary message delivered to Slack. -/
def archiveSummary (days : Int) (archived failed : List InactiveEntry) : String :=
  String.intercalate "\n" (summaryLines days archived failed)

/-- How `main` ends: a normal `return`, an uncaught propagated exception
(from discovery), or modelled-fuel exhaustion. -/
inductive MainResult where
  | returned
  | uncaught
  | fuelOut
deriving Repr, DecidableEq

/-- Lines 135-171: `main` after argument parsing: `days` is the parsed
`--days` value, `dry_run` the `--dry-run` flag.  Returns the event trace
and how the call ended. -/
def main (api : JiraApi) (archiveApi : String → ArchiveResponse)
    (now : Int) (fuel : Nat) (days : Int) (dry_run : Bool) :
    List Event × MainResult :=
  let scan := find_inactive_projects api now fuel days
  match scan.2 with
  | .httpError => (scan.1, .uncaught)
  | .fuelOut => (scan.1, .fuelOut)
  | .ok inactive =>
    if inactive.isEmpty then
      (scan.1 ++ [Event.slackPost noopMsg], .returned)
    else if dry_run then
      (scan.1 ++ [Event.slackPost (dryRunMsg inactive)], .returned)
    else
      let al := archiveLoop archiveApi inactive
      (scan.1 ++ al.2.2 ++ [Event.slackPost (archiveSummary days al.1 al.2.1)], .returned)

/-- Lines 35-38: the four required environment variables (`os.getenv` gives
`None` when unset). -/
structure Config where
  jira_email : Option String
  jira_api_token : Option String
  jira_domain : Option String
  slack_webhook_url : Option String

/-- Python truthiness of an `os.getenv` result: `None` and `""` are falsy. -/
def envTruthy : Option String → Bool
  | none => false
  | some s => !s.isEmpty

/-- Line 40: `all([JIRA_EMAIL, JIRA_API_TOKEN, JIRA_DOMAIN, SLACK_WEBHOOK_URL])`. -/
def configOk (c : Config) : Bool :=
  envTruthy c.jira_email && envTruthy c.jira_api_token &&
    envTruthy c.jira_domain && envTruthy c.slack_webhook_url

/-- Whole-process behaviour: the module-level check at lines 40-41
(`sys.exit(<message>)` exits with code 1 before any request), then `main`;
a normal return from `main` reaches the end of the script, exit code 0; an
uncaught exception terminates the interpreter with exit code 1.  `none`
stands for the modelled fuel running out. -/
def runProcess (c : Config) (api : JiraApi) (archiveApi : String → ArchiveResponse)
    (now : Int) (fuel : Nat) (days : Int) (dry_run : Bool) :
    List Event × Option Nat :=
  if !configOk c then ([], some 1)
  else
    let m := main api archiveApi now fuel days dry_run
    match m.2 with
    | .returned => (m.1, some 0)
    | .uncaught => (m.1, some 1)
    | .fuelOut => (m.1, none)

/-! Auxiliary notions used to state the properties. -/

/-- `startsWithChars n h` : the character list `h` begins with `n`. -/
def startsWithChars : List Char → List Char → Bool
  | [], _ => true
  | _ :: _, [] => false
  | a :: as, b :: bs => a == b && startsWithChars as bs

/-- `containsChars n h` : `n` occurs contiguously inside `h` (substring test
on the underlying character lists). -/
def containsChars (needle : List Char) : List Char → Bool
  | [] => startsWithChars needle []
  | c :: rest => startsWithChars needle (c :: rest) || containsChars needle rest

/-- The discovery request recorded by an event got a success response from
`api` (`raise_for_status` did not raise); trivially true for non-discovery
events. -/
def requestOk (api : JiraApi) : Event → Bool
  | .listingRequest s => decide ((api.listing s).status < 400)
  | .searchRequest k => decide ((api.search k).status < 400)
  | _ => true

/-- A well-behaved listing service over a fixed project collection `ps`:
every page reports `total = ps.length` and serves the 50-element slice at
the requested offset, with HTTP 200. -/
def pagedApi (ps : List Project) (searchFn : String → SearchResponse) : JiraApi where
  listing := fun start_at => ⟨200, ps.length, (ps.drop start_at).take 50⟩
  search := searchFn

/-! Concrete fixtures for witnesses and counterexamples. -/

/-- A Jira tenant with no projects at all. -/
def emptyApi : JiraApi where
  listing := fun _ => ⟨200, 0, []⟩
  search := fun _ => ⟨200, []⟩

/-- The single project of the one-project fixtures. -/
def pA : Project := ⟨"10001", "A", "Alpha"⟩

/-- A tenant with exactly one project, `pA`, which has no issues. -/
def oneProjApi : JiraApi where
  listing := fun _ => ⟨200, 1, [pA]⟩
  search := fun _ => ⟨200, []⟩

/-- The inactive entry `find_inactive_projects` builds for `pA` when its
activity query returns no issues. -/
def entryA : InactiveEntry := ⟨"10001", "A", "Alpha", none⟩

/-- An archive API that rejects every request with a 403 and a body. -/
def archApi403 : String → ArchiveResponse :=
  fun _ => ⟨403, "Forbidden: insufficient permissions"⟩

/-- A concrete scan instant for the closed instances. -/
def t0 : Int := 1000000

/-- A tenant whose single project `pA` has its newest issue updated exactly
at the 180-day cutoff before `t0`. -/
def c1Api : JiraApi where
  listing := fun _ => ⟨200, 1, [pA]⟩
  search := fun _ => ⟨200, [cutoff t0 180]⟩

/-- A tenant whose single project `pA` has its newest issue updated at `t0`
itself. -/
def c10Api : JiraApi where
  listing := fun _ => ⟨200, 1, [pA]⟩
  search := fun _ => ⟨200, [t0]⟩

/-- A tenant whose listing endpoint answers 500. -/
def c8Api : JiraApi where
  listing := fun _ => ⟨500, 3, [pA]⟩
  search := fun _ => ⟨200, []⟩

/-- An environment with `JIRA_API_TOKEN` unset. -/
def badConfig : Config := ⟨some "me@example.com", none, some "tenant", some "hook"⟩

/-- An environment with all four variables set and non-empty. -/
def goodConfig : Config :=
  ⟨some "me@example.com", some "token", some "tenant", some "hook"⟩

end ArchiveInactive

namespace ArchiveInactive

/-! ### Unfolding equations for the pagination loop -/

lemma scanLoop_stop (api : JiraApi) (c : Int) (fuel start_at t : Nat)
    (acc : List InactiveEntry) (h : ¬ start_at < t) :
    scanLoop api c fuel start_at (some t) acc = ([], .ok acc) := by
  rw [scanLoop.eq_def]
  simp [h]

lemma scanLoop_out (api : JiraApi) (c : Int) (start_at : Nat) (total : Option Nat)
    (acc : List InactiveEntry) (h : total = none ∨ ∃ t, total = some t ∧ start_at < t) :
    scanLoop api c 0 start_at total acc = ([], .fuelOut) := by
  rw [scanLoop.eq_def]
  rcases h with rfl | ⟨t, rfl, h⟩
  · simp
  · simp [h]

lemma scanLoop_go (api : JiraApi) (c : Int) (f start_at : Nat) (total : Option Nat)
    (acc : List InactiveEntry) (h : total = none ∨ ∃ t, total = some t ∧ start_at < t) :
    scanLoop api c (f + 1) start_at total acc =
      if 400 ≤ (api.listing start_at).status then
        ([Event.listingRequest start_at], .httpError)
      else
        match (processValues api c (api.listing start_at).values acc).2 with
        | .error () =>
          (Event.listingRequest start_at ::
            (processValues api c (api.listing start_at).values acc).1, .httpError)
        | .ok inactive2 =>
          (Event.listingRequest start_at ::
            ((processValues api c (api.listing start_at).values acc).1 ++
              (scanLoop api c f (start_at + 50) (some (api.listing start_at).total) inactive2).1),
            (scanLoop api c f (start_at + 50) (some (api.listing start_at).total) inactive2).2) := by
  rw [scanLoop.eq_def]
  rcases h with rfl | ⟨t, rfl, h⟩
  · simp
  · simp [h]

/-! ### Discovery traces contain only listing and search requests -/

lemma processValues_events (api : JiraApi) (c : Int) :
    ∀ (values : List Project) (acc : List InactiveEntry),
      ∀ e ∈ (processValues api c values acc).1, e.isSearch = true := by
  intro values
  induction values with
  | nil => intro acc e he; simp [processValues] at he
  | cons p rest ih =>
    intro acc e he
    rw [processValues] at he
    rcases hp : processProject api c p with u | o
    · cases u
      rw [hp] at he
      simp at he
      subst he
      rfl
    · rcases o with _ | entry
      · rw [hp] at he
        simp at he
        rcases he with he | he
        · subst he; rfl
        · exact ih acc e he
      · rw [hp] at he
        simp at he
        rcases he with he | he
        · subst he; rfl
        · exact ih (acc ++ [entry]) e he

lemma scanLoop_events (api : JiraApi) (c : Int) :
    ∀ (fuel start_at : Nat) (total : Option Nat) (acc : List InactiveEntry),
      ∀ e ∈ (scanLoop api c fuel start_at total acc).1,
        e.isListing = true ∨ e.isSearch = true := by
  intro fuel
  induction fuel with
  | zero =>
    intro start_at total acc e he
    rcases total with _ | t
    · rw [scanLoop_out api c start_at none acc (Or.inl rfl)] at he
      simp at he
    · by_cases hlt : start_at < t
      · rw [scanLoop_out api c start_at (some t) acc (Or.inr ⟨t, rfl, hlt⟩)] at he
        simp at he
      · rw [scanLoop_stop api c 0 start_at t acc hlt] at he
        simp at he
  | succ f ih =>
    intro start_at total acc e he
    have step :
        (∀ e2 ∈ (if 400 ≤ (api.listing start_at).status then
            ([Event.listingRequest start_at], ScanResult.httpError)
          else
            match (processValues api c (api.listing start_at).values acc).2 with
            | .error () =>
              (Event.listingRequest start_at ::
                (processValues api c (api.listing start_at).values acc).1,
                  ScanResult.httpError)
            | .ok inactive2 =>
              (Event.listingRequest start_at ::
                ((processValues api c (api.listing start_at).values acc).1 ++
                  (scanLoop api c f (start_at + 50) (some (api.listing start_at).total)
                    inactive2).1),
                (scanLoop api c f (start_at + 50) (some (api.listing start_at).total)
                  inactive2).2)).1,
          e2.isListing = true ∨ e2.isSearch = true) := by
      intro e2 he2
      by_cases hst : 400 ≤ (api.listing start_at).status
      · rw [if_pos hst] at he2
        simp at he2
        subst he2
        left; rfl
      · rw [if_neg hst] at he2
        rcases hpv : (processValues api c (api.listing start_at).values acc).2 with u | l2
        · cases u
          rw [hpv] at he2
          simp at he2
          rcases he2 with he2 | he2
          · subst he2; left; rfl
          · right; exact processValues_events api c _ acc e2 he2
        · rw [hpv] at he2
          simp at he2
          rcases he2 with he2 | he2 | he2
          · subst he2; left; rfl
          · right; exact processValues_events api c _ acc e2 he2
          · exact ih (start_at + 50) _ l2 e2 he2
    rcases total with _ | t
    · rw [scanLoop_go api c f start_at none acc (Or.inl rfl)] at he
      exact step e he
    · by_cases hlt : start_at < t
      · rw [scanLoop_go api c f start_at (some t) acc (Or.inr ⟨t, rfl, hlt⟩)] at he
        exact step e he
      · rw [scanLoop_stop api c (f+1) start_at t acc hlt] at he
        simp at he

lemma scan_archive_slack_count (api : JiraApi) (c : Int) (fuel start_at : Nat)
    (total : Option Nat) (acc : List InactiveEntry) :
    archiveCount (scanLoop api c fuel start_at total acc).1 = 0 ∧
      slackCount (scanLoop api c fuel start_at total acc).1 = 0 := by
  constructor
  · rw [archiveCount, List.countP_eq_zero]
    intro e he
    rcases scanLoop_events api c fuel start_at total acc e he with h | h <;>
      cases e <;> simp_all [Event.isListing, Event.isSearch, Event.isArchive]
  · rw [slackCount, List.countP_eq_zero]
    intro e he
    rcases scanLoop_events api c fuel start_at total acc e he with h | h <;>
      cases e <;> simp_all [Event.isListing, Event.isSearch, Event.isSlack]

end ArchiveInactive

namespace ArchiveInactive

lemma processProject_error_of_status (api : JiraApi) (c : Int) (p : Project)
    (h : 400 ≤ (api.search p.key).status) : processProject api c p = .error () := by
  rw [processProject]
  simp [h]

lemma processValues_ok_requests (api : JiraApi) (c : Int) :
    ∀ (values : List Project) (acc : List InactiveEntry),
      (∃ acc2, (processValues api c values acc).2 = Except.ok acc2) →
      ∀ e ∈ (processValues api c values acc).1, requestOk api e = true := by
  intro values
  induction values with
  | nil => intro acc _ e he; simp [processValues] at he
  | cons p rest ih =>
    intro acc hok e he
    have hst : ¬ 400 ≤ (api.search p.key).status := by
      intro habs
      obtain ⟨acc2, h2⟩ := hok
      rw [processValues, processProject_error_of_status api c p habs] at h2
      simp at h2
    have hreq : requestOk api (Event.searchRequest p.key) = true := by
      rw [requestOk]
      simp
      omega
    rcases hpp : processProject api c p with u | o
    · cases u
      obtain ⟨acc2, h2⟩ := hok
      rw [processValues, hpp] at h2
      simp at h2
    · rcases o with _ | entry
      · rw [processValues, hpp] at he hok
        simp at he
        rcases he with he | he
        · subst he; exact hreq
        · exact ih acc (by simpa using hok) e he
      · rw [processValues, hpp] at he hok
        simp at he
        rcases he with he | he
        · subst he; exact hreq
        · exact ih (acc ++ [entry]) (by simpa using hok) e he

lemma scanLoop_ok_requests (api : JiraApi) (c : Int) :
    ∀ (fuel start_at : Nat) (total : Option Nat) (acc : List InactiveEntry),
      (∃ l, (scanLoop api c fuel start_at total acc).2 = ScanResult.ok l) →
      ∀ e ∈ (scanLoop api c fuel start_at total acc).1, requestOk api e = true := by
  intro fuel
  induction fuel with
  | zero =>
    intro start_at total acc _ e he
    rcases total with _ | t
    · rw [scanLoop_out api c start_at none acc (Or.inl rfl)] at he
      simp at he
    · by_cases hlt : start_at < t
      · rw [scanLoop_out api c start_at (some t) acc (Or.inr ⟨t, rfl, hlt⟩)] at he
        simp at he
      · rw [scanLoop_stop api c 0 start_at t acc hlt] at he
        simp at he
  | succ f ih =>
    intro start_at total acc hok e he
    have step : ∀ (hgo : scanLoop api c (f + 1) start_at total acc =
        if 400 ≤ (api.listing start_at).status then
          ([Event.listingRequest start_at], ScanResult.httpError)
        else
          match (processValues api c (api.listing start_at).values acc).2 with
          | .error () =>
            (Event.listingRequest start_at ::
              (processValues api c (api.listing start_at).values acc).1,
                ScanResult.httpError)
          | .ok inactive2 =>
            (Event.listingRequest start_at ::
              ((processValues api c (api.listing start_at).values acc).1 ++
                (scanLoop api c f (start_at + 50) (some (api.listing start_at).total)
                  inactive2).1),
              (scanLoop api c f (start_at + 50) (some (api.listing start_at).total)
                inactive2).2)),
        requestOk api e = true := by
      intro hgo
      rw [hgo] at hok he
      by_cases hst : 400 ≤ (api.listing start_at).status
      · rw [if_pos hst] at hok
        obtain ⟨l, hl⟩ := hok
        simp at hl
      · rw [if_neg hst] at hok he
        rcases hpv : (processValues api c (api.listing start_at).values acc).2 with u | l2
        · cases u
          rw [hpv] at hok
          obtain ⟨l, hl⟩ := hok
          simp at hl
        · rw [hpv] at hok he
          simp at he
          rcases he with he | he | he
          · subst he
            rw [requestOk]
            simp
            omega
          · exact processValues_ok_requests api c _ acc ⟨l2, hpv⟩ e he
          · refine ih (start_at + 50) _ l2 ?_ e he
            obtain ⟨l, hl⟩ := hok
            simp at hl
            exact ⟨l, hl⟩
    rcases total with _ | t
    · exact step (scanLoop_go api c f start_at none acc (Or.inl rfl))
    · by_cases hlt : start_at < t
      · exact step (scanLoop_go api c f start_at (some t) acc (Or.inr ⟨t, rfl, hlt⟩))
      · rw [scanLoop_stop api c (f+1) start_at t acc hlt] at he
        simp at he

end ArchiveInactive

namespace ArchiveInactive

/-- C1: for every threshold `d ≥ 0`, a workspace whose newest item timestamp
equals the cutoff `now - d` days is classified active (strict `<` required
for inactivity) and is excluded from the result of `find_inactive_projects`. -/
theorem c1_boundary_timestamp_active (api : JiraApi) (now : Int) (d : Int)
    (hd : 0 ≤ d) (p : Project) (s ls : Nat) (rest : List Int)
    (hsearch : api.search p.key = ⟨s, cutoff now d :: rest⟩) (hs : s < 400)
    (hlist : api.listing 0 = ⟨ls, 1, [p]⟩) (hls : ls < 400) (fuel : Nat) :
    processProject api (cutoff now d) p = .ok none ∧
      (find_inactive_projects api now (fuel + 1) d).2 = ScanResult.ok [] := by
  have hs' : ¬ 400 ≤ s := by omega
  have hls' : ¬ 400 ≤ ls := by omega
  have hp : processProject api (cutoff now d) p = .ok none := by
    rw [processProject, hsearch]
    simp [hs']
  refine ⟨hp, ?_⟩
  have hpv : processValues api (cutoff now d) [p] [] = ([Event.searchRequest p.key], .ok []) := by
    rw [processValues, hp]
    simp [processValues]
  have hstop : scanLoop api (cutoff now d) fuel (0 + 50) (some 1) [] = ([], .ok []) :=
    scanLoop_stop api (cutoff now d) fuel (0 + 50) 1 [] (by omega)
  rw [find_inactive_projects, scanLoop_go api (cutoff now d) fuel 0 none [] (Or.inl rfl),
    hlist]
  simp [hls', hpv, hstop]

/-- C3: a workspace whose activity query returns zero items is classified
inactive with `last_updated = none` and included in the result of
`find_inactive_projects`, for every threshold `d`. -/
theorem c3_zero_items_inactive (api : JiraApi) (now : Int) (d : Int)
    (p : Project) (s ls : Nat)
    (hsearch : api.search p.key = ⟨s, []⟩) (hs : s < 400)
    (hlist : api.listing 0 = ⟨ls, 1, [p]⟩) (hls : ls < 400) (fuel : Nat) :
    processProject api (cutoff now d) p =
        .ok (some ⟨p.id, p.key, p.name, none⟩) ∧
      (find_inactive_projects api now (fuel + 1) d).2 =
        ScanResult.ok [⟨p.id, p.key, p.name, none⟩] := by
  have hs' : ¬ 400 ≤ s := by omega
  have hls' : ¬ 400 ≤ ls := by omega
  have hp : processProject api (cutoff now d) p = .ok (some ⟨p.id, p.key, p.name, none⟩) := by
    rw [processProject, hsearch]
    simp [hs']
  refine ⟨hp, ?_⟩
  have hpv : processValues api (cutoff now d) [p] [] =
      ([Event.searchRequest p.key], .ok [⟨p.id, p.key, p.name, none⟩]) := by
    rw [processValues, hp]
    simp [processValues]
  have hstop : scanLoop api (cutoff now d) fuel (0 + 50) (some 1)
      [⟨p.id, p.key, p.name, none⟩] = ([], .ok [⟨p.id, p.key, p.name, none⟩]) :=
    scanLoop_stop api (cutoff now d) fuel (0 + 50) 1 _ (by omega)
  rw [find_inactive_projects, scanLoop_go api (cutoff now d) fuel 0 none [] (Or.inl rfl),
    hlist]
  simp [hls', hpv, hstop]

/-- C10: `find_inactive_projects` accepts a negative `inactive_days` without
validation: the cutoff lies strictly in the future of `now`, and the same
strict comparison classifies a workspace updated at `now` as inactive. -/
theorem c10_negative_days_unvalidated (api : JiraApi) (now : Int) (d : Int)
    (hd : d < 0) (p : Project) (s ls : Nat) (rest : List Int)
    (hsearch : api.search p.key = ⟨s, now :: rest⟩) (hs : s < 400)
    (hlist : api.listing 0 = ⟨ls, 1, [p]⟩) (hls : ls < 400) (fuel : Nat) :
    now < cutoff now d ∧
      (find_inactive_projects api now (fuel + 1) d).2 =
        ScanResult.ok [⟨p.id, p.key, p.name, some now⟩] := by
  have hcut : now < cutoff now d := by
    rw [cutoff, secondsPerDay]
    omega
  have hs' : ¬ 400 ≤ s := by omega
  have hls' : ¬ 400 ≤ ls := by omega
  have hp : processProject api (cutoff now d) p = .ok (some ⟨p.id, p.key, p.name, some now⟩) := by
    rw [processProject, hsearch]
    simp [hs', hcut]
  refine ⟨hcut, ?_⟩
  have hpv : processValues api (cutoff now d) [p] [] =
      ([Event.searchRequest p.key], .ok [⟨p.id, p.key, p.name, some now⟩]) := by
    rw [processValues, hp]
    simp [processValues]
  have hstop : scanLoop api (cutoff now d) fuel (0 + 50) (some 1)
      [⟨p.id, p.key, p.name, some now⟩] = ([], .ok [⟨p.id, p.key, p.name, some now⟩]) :=
    scanLoop_stop api (cutoff now d) fuel (0 + 50) 1 _ (by omega)
  rw [find_inactive_projects, scanLoop_go api (cutoff now d) fuel 0 none [] (Or.inl rfl),
    hlist]
  simp [hls', hpv, hstop]

/-- C7: `notify_slack` returns normally for every message and every outcome
of the webhook POST, including a raised exception: delivery failures are
swallowed. -/
theorem c7_notify_never_raises (deliver : String → PyResult Nat) (msg : String) :
    notify_slack deliver msg = .ok () := by
  rw [notify_slack]
  rcases h : notify_slack_try (deliver msg) with u | e
  · cases u; rfl
  · rfl

/-- C4: `archive_project` succeeds exactly when the archive API answers 202,
and a failure does not abort the batch: the archive pass issues one archive
request per inactive workspace regardless of outcomes, and every workspace
lands in exactly one of the archived / failed partitions. -/
theorem c4_archive_success_iff_202 :
    (∀ (archiveApi : String → ArchiveResponse) (p : InactiveEntry),
        (archive_project archiveApi p).2 = true ↔ (archiveApi p.id).status = 202) ∧
    (∀ (archiveApi : String → ArchiveResponse) (ps : List InactiveEntry),
        (archiveLoop archiveApi ps).2.2 = ps.map fun p => Event.archiveRequest p.id) ∧
    (∀ (archiveApi : String → ArchiveResponse) (ps : List InactiveEntry),
        (archiveLoop archiveApi ps).1.length + (archiveLoop archiveApi ps).2.1.length
          = ps.length) := by
  refine ⟨?_, ?_, ?_⟩
  · intro archiveApi p
    simp [archive_project]
  · intro archiveApi ps
    induction ps with
    | nil => simp [archiveLoop]
    | cons p rest ih =>
      cases h : (archiveApi p.id).status == 202 <;>
        simp [archiveLoop, archive_project, h, ih]
  · intro archiveApi ps
    induction ps with
    | nil => simp [archiveLoop]
    | cons p rest ih =>
      cases h : (archiveApi p.id).status == 202 <;>
        simp [archiveLoop, archive_project, h] <;> omega

/-- C9: with any required configuration value missing or empty the process
exits with code 1 having performed no network request; with configuration
present, every run in which `main` returns exits with code 0, whatever the
archive outcomes were. -/
theorem c9_exit_codes (c : Config) (api : JiraApi)
    (archiveApi : String → ArchiveResponse) (now : Int) (fuel : Nat)
    (days : Int) (dry_run : Bool) :
    (configOk c = false →
      runProcess c api archiveApi now fuel days dry_run = ([], some 1)) ∧
    (configOk c = true → ∀ evs,
      main api archiveApi now fuel days dry_run = (evs, .returned) →
      runProcess c api archiveApi now fuel days dry_run = (evs, some 0)) := by
  constructor
  · intro h
    rw [runProcess]
    simp [h]
  · intro h evs hm
    rw [runProcess]
    simp [h, hm]

end ArchiveInactive

namespace ArchiveInactive

/-- Witness for C1 at a concrete boundary input. -/
theorem c1_witness :
    processProject c1Api (cutoff t0 180) pA = .ok none ∧
      (find_inactive_projects c1Api t0 (0 + 1) 180).2 = ScanResult.ok [] :=
  c1_boundary_timestamp_active c1Api t0 180 (by decide) pA 200 200 [] rfl
    (by decide) rfl (by decide) 0

/-- Witness for C3 at a concrete zero-items input. -/
theorem c3_witness :
    processProject oneProjApi (cutoff t0 180) pA =
        .ok (some ⟨pA.id, pA.key, pA.name, none⟩) ∧
      (find_inactive_projects oneProjApi t0 (0 + 1) 180).2 =
        ScanResult.ok [⟨pA.id, pA.key, pA.name, none⟩] :=
  c3_zero_items_inactive oneProjApi t0 180 pA 200 200 rfl (by decide) rfl (by decide) 0

/-- Witness for C10 at the concrete threshold `-5`. -/
theorem c10_witness :
    t0 < cutoff t0 (-5) ∧
      (find_inactive_projects c10Api t0 (0 + 1) (-5)).2 =
        ScanResult.ok [⟨pA.id, pA.key, pA.name, some t0⟩] :=
  c10_negative_days_unvalidated c10Api t0 (-5) (by decide) pA 200 200 [] rfl
    (by decide) rfl (by decide) 0

/-- Witness for C9: a missing token exits 1 with no requests; a full run in
which the only archive attempt fails still exits 0. -/
theorem c9_witness :
    runProcess badConfig oneProjApi archApi403 t0 1 180 false = ([], some 1) ∧
    runProcess goodConfig oneProjApi archApi403 t0 1 180 false =
      ([Event.listingRequest 0, Event.searchRequest "A", Event.archiveRequest "10001",
        Event.slackPost (archiveSummary 180 [] [entryA])], some 0) := by
  constructor
  · exact (c9_exit_codes badConfig oneProjApi archApi403 t0 1 180 false).1 (by decide)
  · exact (c9_exit_codes goodConfig oneProjApi archApi403 t0 1 180 false).2 (by decide)
      _ (by decide)

/-- C8: a non-success status from a listing page or an activity query aborts
discovery at once with a propagated error and no partial result: `main`
forwards the exception, sending no notification and archiving nothing; a bad
listing page stops the loop after that one request; a bad activity query
stops the page scan at that query, discarding the accumulator; and a run
that does return a workspace list received a success status for every
request it made. -/
theorem c8_discovery_error_aborts :
    (∀ (api : JiraApi) (archiveApi : String → ArchiveResponse) (now : Int)
        (fuel : Nat) (days : Int) (dry_run : Bool),
      (find_inactive_projects api now fuel days).2 = ScanResult.httpError →
        main api archiveApi now fuel days dry_run =
          ((find_inactive_projects api now fuel days).1, .uncaught) ∧
        slackCount (main api archiveApi now fuel days dry_run).1 = 0 ∧
        archiveCount (main api archiveApi now fuel days dry_run).1 = 0) ∧
    (∀ (api : JiraApi) (now : Int) (fuel : Nat) (days : Int),
      400 ≤ (api.listing 0).status →
        find_inactive_projects api now (fuel + 1) days =
          ([Event.listingRequest 0], ScanResult.httpError)) ∧
    (∀ (api : JiraApi) (c : Int) (fuel start_at : Nat) (total : Option Nat)
        (acc : List InactiveEntry),
      (total = none ∨ ∃ t, total = some t ∧ start_at < t) →
      400 ≤ (api.listing start_at).status →
        scanLoop api c (fuel + 1) start_at total acc =
          ([Event.listingRequest start_at], ScanResult.httpError)) ∧
    (∀ (api : JiraApi) (c : Int) (p : Project) (rest : List Project)
        (acc : List InactiveEntry),
      400 ≤ (api.search p.key).status →
        processValues api c (p :: rest) acc =
          ([Event.searchRequest p.key], .error ())) ∧
    (∀ (api : JiraApi) (now : Int) (fuel : Nat) (days : Int)
        (l : List InactiveEntry),
      (find_inactive_projects api now fuel days).2 = ScanResult.ok l →
        ∀ e ∈ (find_inactive_projects api now fuel days).1,
          requestOk api e = true) := by
  refine ⟨?_, ?_, ?_, ?_, ?_⟩
  · intro api archiveApi now fuel days dry_run h
    have hm : main api archiveApi now fuel days dry_run =
        ((find_inactive_projects api now fuel days).1, .uncaught) := by
      rw [main]
      simp [h]
    refine ⟨hm, ?_, ?_⟩
    · rw [hm]
      exact (scan_archive_slack_count api (cutoff now days) fuel 0 none []).2
    · rw [hm]
      exact (scan_archive_slack_count api (cutoff now days) fuel 0 none []).1
  · intro api now fuel days h
    rw [find_inactive_projects, scanLoop_go api (cutoff now days) fuel 0 none []
      (Or.inl rfl), if_pos h]
  · intro api c fuel start_at total acc hgo h
    rw [scanLoop_go api c fuel start_at total acc hgo, if_pos h]
  · intro api c p rest acc h
    rw [processValues, processProject_error_of_status api c p h]
  · intro api now fuel days l h
    exact scanLoop_ok_requests api (cutoff now days) fuel 0 none [] ⟨l, h⟩

/-- Witness for C8 at a concrete 500-listing tenant. -/
theorem c8_witness :
    find_inactive_projects c8Api t0 1 180 =
      ([Event.listingRequest 0], ScanResult.httpError) ∧
    main c8Api archApi403 t0 1 180 false =
      ((find_inactive_projects c8Api t0 1 180).1, .uncaught) ∧
    slackCount (main c8Api archApi403 t0 1 180 false).1 = 0 ∧
    archiveCount (main c8Api archApi403 t0 1 180 false).1 = 0 := by
  refine ⟨c8_discovery_error_aborts.2.1 c8Api t0 0 180 (by decide), ?_⟩
  exact c8_discovery_error_aborts.1 c8Api archApi403 t0 1 180 false (by decide)

/-- Counterexample to C6 as stated: in a dry run over a tenant with no
inactive workspaces, the driver sends the no-op summary, which is not the
dry-run preview of the discovered list. -/
theorem c6_counterexample :
    main emptyApi archApi403 t0 1 180 true =
      ([Event.listingRequest 0, Event.slackPost noopMsg], .returned) ∧
    noopMsg ≠ dryRunMsg [] := by
  constructor
  · decide
  · decide

end ArchiveInactive

namespace ArchiveInactive

lemma listingCount_append (a b : List Event) :
    listingCount (a ++ b) = listingCount a + listingCount b := by
  simp [listingCount, List.countP_append]

lemma searchCount_append (a b : List Event) :
    searchCount (a ++ b) = searchCount a + searchCount b := by
  simp [searchCount, List.countP_append]

lemma archiveCount_append (a b : List Event) :
    archiveCount (a ++ b) = archiveCount a + archiveCount b := by
  simp [archiveCount, List.countP_append]

lemma listingCount_searchMap (f : Project → String) (l : List Project) :
    listingCount (l.map fun x => Event.searchRequest (f x)) = 0 := by
  rw [listingCount, List.countP_eq_zero]
  intro e he
  simp [List.mem_map] at he
  obtain ⟨x, _, rfl⟩ := he
  simp [Event.isListing]

lemma searchCount_searchMap (f : Project → String) (l : List Project) :
    searchCount (l.map fun x => Event.searchRequest (f x)) = l.length := by
  rw [searchCount]
  have h : (l.map fun x => Event.searchRequest (f x)).countP Event.isSearch
      = (l.map fun x => Event.searchRequest (f x)).length := by
    rw [List.countP_eq_length]
    intro e he
    simp [List.mem_map] at he
    obtain ⟨x, _, rfl⟩ := he
    rfl
  rw [h, List.length_map]

lemma archiveCount_slackPost (m : String) : archiveCount [Event.slackPost m] = 0 := rfl

/-- C6 amended: with the dry-run flag set the archive action is never
invoked in any run; when discovery succeeds with at least one inactive
workspace the driver sends only the dry-run preview and returns, and when
discovery succeeds with none it sends the no-op summary instead. -/
theorem c6_amended_dry_run_no_archive (api : JiraApi)
    (archiveApi : String → ArchiveResponse) (now : Int) (fuel : Nat) (days : Int) :
    archiveCount (main api archiveApi now fuel days true).1 = 0 ∧
    (∀ (trace : List Event) (inactive : List InactiveEntry),
      find_inactive_projects api now fuel days = (trace, .ok inactive) →
      inactive ≠ [] →
      main api archiveApi now fuel days true =
        (trace ++ [Event.slackPost (dryRunMsg inactive)], .returned)) ∧
    (∀ (trace : List Event) (inactive : List InactiveEntry),
      find_inactive_projects api now fuel days = (trace, .ok inactive) →
      inactive = [] →
      main api archiveApi now fuel days true =
        (trace ++ [Event.slackPost noopMsg], .returned)) := by
  have hscan : archiveCount (find_inactive_projects api now fuel days).1 = 0 :=
    (scan_archive_slack_count api (cutoff now days) fuel 0 none []).1
  refine ⟨?_, ?_, ?_⟩
  · rw [main]
    rcases hs : (find_inactive_projects api now fuel days).2 with l | _ | _
    · simp only [hs]
      by_cases hl : l.isEmpty
      · simp only [hl, if_pos]
        rw [archiveCount_append, hscan, archiveCount_slackPost]
      · simp only [hl]
        simp only [if_neg, if_true, Bool.false_eq_true, if_false]
        rw [archiveCount_append, hscan, archiveCount_slackPost]
    · simp only [hs]
      exact hscan
    · simp only [hs]
      exact hscan
  · intro trace inactive h hne
    have hl : inactive.isEmpty = false := by
      rcases inactive with _ | ⟨p, rest⟩
      · exact absurd rfl hne
      · rfl
    rw [main, h]
    simp [hl]
  · intro trace inactive h hnil
    subst hnil
    rw [main, h]
    simp

/-- Witness for C6 amended: a dry run over the one-project tenant archives
nothing and sends exactly the preview naming that project. -/
theorem c6_amended_witness :
    archiveCount (main oneProjApi archApi403 t0 1 180 true).1 = 0 ∧
    main oneProjApi archApi403 t0 1 180 true =
      ([Event.listingRequest 0, Event.searchRequest "A"] ++
        [Event.slackPost (dryRunMsg [entryA])], .returned) := by
  refine ⟨(c6_amended_dry_run_no_archive oneProjApi archApi403 t0 1 180).1, ?_⟩
  exact (c6_amended_dry_run_no_archive oneProjApi archApi403 t0 1 180).2.1
    [Event.listingRequest 0, Event.searchRequest "A"] [entryA] (by decide) (by decide)

end ArchiveInactive

namespace ArchiveInactive

/-- Counterexample to C2 as stated: on a tenant whose listing reports
`total = 0`, a complete discovery run still performs one listing request,
not `ceil(0 / 50) = 0`. -/
theorem c2_counterexample :
    (find_inactive_projects emptyApi t0 1 180).2 = ScanResult.ok [] ∧
    (emptyApi.listing 0).total = 0 ∧
    listingCount (find_inactive_projects emptyApi t0 1 180).1 ≠
      ((emptyApi.listing 0).total + 49) / 50 := by
  refine ⟨by decide, rfl, by decide⟩

lemma processValues_ok_trace (api : JiraApi) (c : Int) :
    ∀ (values : List Project) (acc : List InactiveEntry),
      (∀ p ∈ values, (api.search p.key).status < 400) →
      ∃ acc2, processValues api c values acc =
        (values.map fun p => Event.searchRequest p.key, Except.ok acc2) := by
  intro values
  induction values with
  | nil => intro acc _; exact ⟨acc, rfl⟩
  | cons p rest ih =>
    intro acc h
    have hp : ¬ 400 ≤ (api.search p.key).status := by
      have := h p (List.mem_cons_self p rest)
      omega
    have hne : ∀ u, processProject api c p ≠ .error u := by
      intro u
      rw [processProject, if_neg hp]
      rcases hI : (api.search p.key).issues with _ | ⟨a, l⟩
      · simp
      · by_cases hac : a < c
        · simp [hac]
        · simp [hac]
    rcases hpp : processProject api c p with u | o
    · exact absurd hpp (hne u)
    · rcases o with _ | entry
      · obtain ⟨acc2, h2⟩ := ih acc (fun q hq => h q (List.mem_cons_of_mem p hq))
        refine ⟨acc2, ?_⟩
        rw [processValues, hpp]
        simp [h2]
      · obtain ⟨acc2, h2⟩ := ih (acc ++ [entry])
          (fun q hq => h q (List.mem_cons_of_mem p hq))
        refine ⟨acc2, ?_⟩
        rw [processValues, hpp]
        simp [h2]

lemma scanLoop_paged (ps : List Project) (searchFn : String → SearchResponse)
    (hs : ∀ k, (searchFn k).status < 400) (c : Int) :
    ∀ (fuel start_at : Nat) (acc : List InactiveEntry),
      ps.length ≤ start_at + 50 * fuel →
      ∃ trace acc2,
        scanLoop (pagedApi ps searchFn) c fuel start_at (some ps.length) acc =
          (trace, .ok acc2) ∧
        listingCount trace = (ps.length - start_at + 49) / 50 ∧
        searchCount trace = ps.length - start_at := by
  intro fuel
  induction fuel with
  | zero =>
    intro start_at acc hle
    have h : ¬ start_at < ps.length := by omega
    refine ⟨[], acc, scanLoop_stop _ _ _ _ _ _ h, ?_, ?_⟩
    · have h0 : ps.length - start_at = 0 := by omega
      rw [h0]
      rfl
    · have h0 : ps.length - start_at = 0 := by omega
      rw [h0]
      rfl
  | succ f ih =>
    intro start_at acc hle
    by_cases hlt : start_at < ps.length
    · have hgo := scanLoop_go (pagedApi ps searchFn) c f start_at (some ps.length) acc
        (Or.inr ⟨ps.length, rfl, hlt⟩)
      have hlist : (pagedApi ps searchFn).listing start_at =
          ⟨200, ps.length, (ps.drop start_at).take 50⟩ := rfl
      obtain ⟨acc2, hpv⟩ := processValues_ok_trace (pagedApi ps searchFn) c
        ((ps.drop start_at).take 50) acc (fun p _ => hs p.key)
      obtain ⟨trace2, acc3, hrec, hl2, hs2⟩ := ih (start_at + 50) acc2 (by omega)
      have h200 : ¬ 400 ≤ (200 : Nat) := by omega
      refine ⟨Event.listingRequest start_at ::
        ((((ps.drop start_at).take 50).map fun p => Event.searchRequest p.key) ++ trace2),
        acc3, ?_, ?_, ?_⟩
      · rw [hgo, hlist, if_neg h200, hpv]
        simp [hrec]
      · rw [show Event.listingRequest start_at ::
            ((((ps.drop start_at).take 50).map fun p => Event.searchRequest p.key) ++ trace2) =
            [Event.listingRequest start_at] ++
            ((((ps.drop start_at).take 50).map fun p => Event.searchRequest p.key) ++ trace2)
            from rfl]
        rw [listingCount_append, listingCount_append, listingCount_searchMap, hl2]
        have h1 : listingCount [Event.listingRequest start_at] = 1 := rfl
        rw [h1]
        omega
      · rw [show Event.listingRequest start_at ::
            ((((ps.drop start_at).take 50).map fun p => Event.searchRequest p.key) ++ trace2) =
            [Event.listingRequest start_at] ++
            ((((ps.drop start_at).take 50).map fun p => Event.searchRequest p.key) ++ trace2)
            from rfl]
        rw [searchCount_append, searchCount_append, searchCount_searchMap, hs2]
        have h1 : searchCount [Event.listingRequest start_at] = 0 := rfl
        rw [h1, List.length_take, List.length_drop]
        omega
    · have h : ¬ start_at < ps.length := hlt
      refine ⟨[], acc, scanLoop_stop _ _ _ _ _ _ h, ?_, ?_⟩
      · have h0 : ps.length - start_at = 0 := by omega
        rw [h0]
        rfl
      · have h0 : ps.length - start_at = 0 := by omega
        rw [h0]
        rfl

end ArchiveInactive

namespace ArchiveInactive

/-- C2 amended: against a consistent listing service over `N` workspaces, a
complete discovery run performs exactly `max 1 (ceil(N / 50))` listing
requests — one even when `N = 0`, since the first page must be fetched to
learn the total — and exactly one activity-query request per discovered
workspace. -/
theorem c2_amended_request_counts (ps : List Project)
    (searchFn : String → SearchResponse)
    (hs : ∀ k, (searchFn k).status < 400) (now days : Int) (fuel : Nat)
    (hf : ps.length ≤ 50 + 50 * fuel) :
    ∃ trace acc2,
      find_inactive_projects (pagedApi ps searchFn) now (fuel + 1) days =
        (trace, .ok acc2) ∧
      listingCount trace = max 1 ((ps.length + 49) / 50) ∧
      searchCount trace = ps.length := by
  have hgo := scanLoop_go (pagedApi ps searchFn) (cutoff now days) fuel 0 none []
    (Or.inl rfl)
  have hlist : (pagedApi ps searchFn).listing 0 =
      ⟨200, ps.length, (ps.drop 0).take 50⟩ := rfl
  obtain ⟨acc2, hpv⟩ := processValues_ok_trace (pagedApi ps searchFn)
    (cutoff now days) ((ps.drop 0).take 50) [] (fun p _ => hs p.key)
  obtain ⟨trace2, acc3, hrec, hl2, hs2⟩ := scanLoop_paged ps searchFn hs
    (cutoff now days) fuel (0 + 50) acc2 (by omega)
  have h200 : ¬ 400 ≤ (200 : Nat) := by omega
  refine ⟨Event.listingRequest 0 ::
    ((((ps.drop 0).take 50).map fun p => Event.searchRequest p.key) ++ trace2),
    acc3, ?_, ?_, ?_⟩
  · rw [find_inactive_projects, hgo, hlist, if_neg h200, hpv]
    simp [hrec]
  · rw [show Event.listingRequest 0 ::
        ((((ps.drop 0).take 50).map fun p => Event.searchRequest p.key) ++ trace2) =
        [Event.listingRequest 0] ++
        ((((ps.drop 0).take 50).map fun p => Event.searchRequest p.key) ++ trace2)
        from rfl]
    rw [listingCount_append, listingCount_append, listingCount_searchMap, hl2]
    have h1 : listingCount [Event.listingRequest 0] = 1 := rfl
    rw [h1]
    omega
  · rw [show Event.listingRequest 0 ::
        ((((ps.drop 0).take 50).map fun p => Event.searchRequest p.key) ++ trace2) =
        [Event.listingRequest 0] ++
        ((((ps.drop 0).take 50).map fun p => Event.searchRequest p.key) ++ trace2)
        from rfl]
    rw [searchCount_append, searchCount_append, searchCount_searchMap, hs2]
    have h1 : searchCount [Event.listingRequest 0] = 0 := rfl
    rw [h1, List.length_take, List.length_drop]
    omega

/-- Witness for C2 amended at a one-project tenant. -/
theorem c2_amended_witness :
    ∃ trace acc2,
      find_inactive_projects (pagedApi [pA] fun _ => ⟨200, []⟩) t0 (0 + 1) 180 =
        (trace, .ok acc2) ∧
      listingCount trace = max 1 (([pA].length + 49) / 50) ∧
      searchCount trace = [pA].length :=
  c2_amended_request_counts [pA] (fun _ => ⟨200, []⟩)
    (fun _ => by show (200 : Nat) < 400; decide) t0 180 0 (by decide)

/-- Counterexample to C5 as stated: the 403 scenario posts a summary that
does list the workspace under `*Failed:*` but nowhere contains the response
body. -/
theorem c5_counterexample :
    (main oneProjApi archApi403 t0 1 180 false).1.getLast? =
      some (Event.slackPost (archiveSummary 180 [] [entryA])) ∧
    containsChars "*Failed:*".toList (archiveSummary 180 [] [entryA]).toList = true ∧
    containsChars "• Alpha (A)".toList (archiveSummary 180 [] [entryA]).toList = true ∧
    containsChars (archApi403 entryA.id).text.toList
      (archiveSummary 180 [] [entryA]).toList = false := by
  refine ⟨by decide, by decide, by decide, by decide⟩

/-- C5 amended: on a non-202 archive response the response body is captured
in the locally logged warning only; the final summary lists the failed
workspace under `*Failed:*` by name and key, without the response body. -/
theorem c5_amended_failed_lines (archiveApi : String → ArchiveResponse)
    (days : Int) (archived failed : List InactiveEntry) (p : InactiveEntry)
    (hp : p ∈ failed) (hfail : (archiveApi p.id).status ≠ 202) :
    archive_warning archiveApi p =
      some s!"⚠️   Could not archive {p.key} – {(archiveApi p.id).text}" ∧
    "\n*Failed:*" ∈ summaryLines days archived failed ∧
    s!"• {p.name} ({p.key})" ∈ summaryLines days archived failed := by
  have hne : failed.isEmpty = false := by
    rcases failed with _ | ⟨q, rest⟩
    · simp at hp
    · rfl
  refine ⟨?_, ?_, ?_⟩
  · rw [archive_warning]
    have hb : ((archiveApi p.id).status == 202) = false := by
      simp [hfail]
    rw [hb]
    simp
  · rw [summaryLines]
    simp [hne]
  · rw [summaryLines]
    simp [hne]
    right
    right
    right
    exact ⟨p, hp, rfl⟩

/-- Witness for C5 amended at the concrete 403 scenario. -/
theorem c5_amended_witness :
    archive_warning archApi403 entryA =
      some s!"⚠️   Could not archive {entryA.key} – {(archApi403 entryA.id).text}" ∧
    "\n*Failed:*" ∈ summaryLines 180 [] [entryA] ∧
    s!"• {entryA.name} ({entryA.key})" ∈ summaryLines 180 [] [entryA] :=
  c5_amended_failed_lines archApi403 180 [] [entryA] entryA (by simp) (by decide)

end ArchiveInactive
